import Mathlib

/-!
Verification development for the DWD heating-degree-day (HDD) postal-code app
(`app.py`). The Python source is shallowly embedded: strings are modelled on
`List Char` with explicit models of the Python `str` methods used by the code
(`split`, `strip`, `startswith`, `isdigit`), Python `float` values are modelled
as `ℚ`, exceptions as `Except String`, and the network/zip layer as explicit
oracle functions. Executable rational arithmetic is provided by `mkRat`-based
wrappers (`qSub`, `qMul`, ...) with bridge lemmas equating them to the field
operations on `ℚ`.
-/

/-! ## Executable rational arithmetic -/

/-- Subtraction on `ℚ` computed through `mkRat` (kernel-reducible). -/
def qSub (a b : ℚ) : ℚ := mkRat (a.num * b.den - b.num * a.den) (a.den * b.den)

/-- Multiplication on `ℚ` computed through `mkRat` (kernel-reducible). -/
def qMul (a b : ℚ) : ℚ := mkRat (a.num * b.num) (a.den * b.den)

/-- Floor of a rational, computed from its reduced representation. -/
def qfloor (q : ℚ) : ℤ := q.num / q.den

/-- Model of Python `max(a, b)`: returns `b` exactly when `a < b`. -/
def pyMax (a b : ℚ) : ℚ := if a < b then b else a

lemma qSub_eq (a b : ℚ) : qSub a b = a - b := by
  rw [qSub, Rat.mkRat_eq_div]
  have ha : ((a.den : ℚ)) ≠ 0 := by
    exact_mod_cast (Nat.cast_ne_zero).mpr a.den_nz
  have hb : ((b.den : ℚ)) ≠ 0 := by
    exact_mod_cast (Nat.cast_ne_zero).mpr b.den_nz
  conv_rhs => rw [← Rat.num_div_den a, ← Rat.num_div_den b]
  push_cast
  field_simp
  ring

lemma qMul_eq (a b : ℚ) : qMul a b = a * b := by
  rw [qMul, Rat.mkRat_eq_div]
  have ha : ((a.den : ℚ)) ≠ 0 := by
    exact_mod_cast (Nat.cast_ne_zero).mpr a.den_nz
  have hb : ((b.den : ℚ)) ≠ 0 := by
    exact_mod_cast (Nat.cast_ne_zero).mpr b.den_nz
  conv_rhs => rw [← Rat.num_div_den a, ← Rat.num_div_den b]
  push_cast
  field_simp

lemma qfloor_eq (q : ℚ) : qfloor q = ⌊q⌋ := Rat.floor_def.symm

lemma pyMax_eq (a b : ℚ) : pyMax a b = max a b := by
  rw [pyMax]
  rcases lt_or_ge a b with h | h
  · rw [if_pos h, max_eq_right h.le]
  · rw [if_neg (not_lt.mpr h), max_eq_left h]

lemma mkRat_nonneg_of (a : ℤ) (b : ℕ) (h : 0 ≤ a) : 0 ≤ mkRat a b := by
  rw [Rat.mkRat_eq_div]
  positivity

instance {ε α : Type _} [DecidableEq ε] [DecidableEq α] : DecidableEq (Except ε α) := fun x y =>
  match x, y with
  | .ok a, .ok b =>
    if h : a = b then .isTrue (by rw [h]) else .isFalse (fun c => h (Except.ok.inj c))
  | .error e, .error f =>
    if h : e = f then .isTrue (by rw [h]) else .isFalse (fun c => h (Except.error.inj c))
  | .ok _, .error _ => .isFalse (fun c => Except.noConfusion c)
  | .error _, .ok _ => .isFalse (fun c => Except.noConfusion c)

/-! ## Models of the Python string primitives used by `app.py` -/

/-- Characters Python `str.strip()` and `str.split()` treat as whitespace. -/
def isPySpace (c : Char) : Bool :=
  c == ' ' || c == '\t' || c == '\n' || c == '\r' || c == '\x0b' || c == '\x0c'

/-- Left trim on character lists. -/
def trimL (l : List Char) : List Char := l.dropWhile isPySpace

/-- Right trim on character lists. -/
def trimR (l : List Char) : List Char := (l.reverse.dropWhile isPySpace).reverse

/-- Model of Python `str.strip()` on character lists. -/
def pyStripData (l : List Char) : List Char := trimR (trimL l)

/-- Model of Python `str.strip()`. -/
def pyStrip (s : String) : String := ⟨pyStripData s.data⟩

/-- Helper for `pySplitOn`: accumulates the current field. -/
def sepSplitGo (sep : Char) (acc : List Char) : List Char → List String
  | [] => [⟨acc.reverse⟩]
  | c :: cs => if c == sep then ⟨acc.reverse⟩ :: sepSplitGo sep [] cs else sepSplitGo sep (c :: acc) cs

/-- Model of Python `str.split(sep)` for a one-character separator. -/
def pySplitOn (sep : Char) (s : String) : List String := sepSplitGo sep [] s.data

/-- Helper for `pySplitWs`: splits on whitespace runs, dropping empty fields. -/
def wsSplitGo (acc : List Char) : List Char → List String
  | [] => if acc.isEmpty then [] else [⟨acc.reverse⟩]
  | c :: cs =>
    if isPySpace c then
      if acc.isEmpty then wsSplitGo [] cs else ⟨acc.reverse⟩ :: wsSplitGo [] cs
    else wsSplitGo (c :: acc) cs

/-- Model of Python `str.split()` with no argument (whitespace runs). -/
def pySplitWs (s : String) : List String := wsSplitGo [] s.data

/-- Model of Python `str.startswith(pre)`. -/
def pyStartswith (s pre : String) : Bool := pre.data.isPrefixOf s.data

/-- Model of Python `str.isdigit()` for ASCII digits: non-empty and all digits. -/
def pyIsDigit (s : String) : Bool := !s.data.isEmpty && s.data.all Char.isDigit

/-- Numeric value of a digit string (meaningful when `pyIsDigit` holds). -/
def natOfDigits (s : String) : Nat := s.data.foldl (fun n c => n * 10 + (c.toNat - 48)) 0

/-- Model of Python `str.replace(a, b)` for one-character arguments. -/
def pyReplace (s : String) (a b : Char) : String := ⟨s.data.map (fun c => if c == a then b else c)⟩

/-- Decimal digits of a natural number (first argument is fuel). -/
def natDigitsAux : Nat → Nat → List Char
  | 0, _ => []
  | fuel+1, n => if n < 10 then [Char.ofNat (48 + n)] else natDigitsAux fuel (n / 10) ++ [Char.ofNat (48 + n % 10)]

/-- Model of Python `str(n)` for a non-negative integer. -/
def pyStr (n : Nat) : String := ⟨natDigitsAux (n + 1) n⟩

/-- Unsigned decimal literal parser: digits with at most one dot, at least one
digit overall.  Returns the exact rational value. -/
def parseUnsignedDec (s : String) : Option ℚ :=
  match pySplitOn '.' s with
  | [a] => if pyIsDigit a then some (mkRat (natOfDigits a) 1) else none
  | [a, b] =>
    if (a.data.all Char.isDigit && b.data.all Char.isDigit) && (!a.data.isEmpty || !b.data.isEmpty) then
      some (mkRat (natOfDigits a * 10 ^ b.data.length + natOfDigits b) (10 ^ b.data.length))
    else none
  | _ => none

/-- Model of Python `float(s)` on plain decimal literals: optional surrounding
whitespace, optional sign, digits with at most one dot.  Exotic inputs
(exponents, `inf`, `nan`, underscores) are outside the model and map to
`none` just like any unparsable string. -/
def pyFloat? (s : String) : Option ℚ :=
  let t := pyStrip s
  if pyStartswith t "-" then (parseUnsignedDec ⟨t.data.drop 1⟩).map (fun q => -q)
  else if pyStartswith t "+" then parseUnsignedDec ⟨t.data.drop 1⟩
  else parseUnsignedDec t

example : pySplitOn ';' "a;bc;" = ["a", "bc", ""] := by decide
example : pySplitWs "  a  bc " = ["a", "bc"] := by decide
example : pyStrip "  -5.2 " = "-5.2" := by decide
example : pyStr 20240110 = "20240110" := by decide
example : pyFloat? "5.0" = some 5 := by decide
example : pyFloat? "-5.2" = some (mkRat (-26) 5) := by decide
example : pyFloat? "abc" = none := by decide
example : pyFloat? "-" = none := by decide
example : natOfDigits "20240110" = 20240110 := by decide

/-! ## Data model -/

/-- Embedding of the `Station` dataclass of `app.py` (`sid, von, bis, lat, lon,
name`); `von`/`bis` are `YYYYMMDD` integers, `0` meaning unbounded. -/
structure Station where
  sid : Nat
  von : Nat
  bis : Nat
  lat : ℚ
  lon : ℚ
  name : String
deriving DecidableEq

/-- Embedding of `safe_int_yyyymmdd` of `app.py`: the stripped string must be
all digits of length 8, otherwise the default is returned. -/
def safe_int_yyyymmdd (s : String) (default : Nat) : Nat :=
  let t := pyStrip s
  if pyIsDigit t && t.data.length == 8 then natOfDigits t else default

/-! ## Station catalog loading (`load_dwd_stations`) -/

/-- Embedding of the per-line parsing loop of `load_dwd_stations` in `app.py`
(lines after the header).  Blank lines, lines with fewer than 7
whitespace-separated fields, and lines whose first field is not all digits are
skipped; a coordinate field that does not parse as a float raises (Python
`float(...)` throws `ValueError`, uncaught in the loop), modelled as
`Except.error`. -/
def stationsLoop : List String → Except String (List Station)
  | [] => .ok []
  | line :: rest =>
    if (pyStrip line).data.isEmpty then stationsLoop rest
    else
      let parts := pySplitWs line
      if parts.length < 7 then stationsLoop rest
      else
        let sid_raw := pyStrip (parts.getD 0 "")
        if !pyIsDigit sid_raw then stationsLoop rest
        else
          let sid := natOfDigits sid_raw
          let von := safe_int_yyyymmdd (parts.getD 1 "") 0
          let bis := safe_int_yyyymmdd (parts.getD 2 "") 99991231
          match pyFloat? (parts.getD 4 ""), pyFloat? (parts.getD 5 "") with
          | some lat, some lon =>
            (stationsLoop rest).map (fun sts => Station.mk sid von bis lat lon (parts.getD 6 "") :: sts)
          | _, _ => .error "ValueError: could not convert string to float"

/-- Embedding of the fresh-parse path of `load_dwd_stations` in `app.py`: the
fetched station-list text is given as its list of lines (the HTTP fetch and
the byte cache are I/O and sit outside the embedding); the first line (header)
is dropped, the rest go through the parsing loop.  Note the function returns
whatever list the loop produces — it performs no emptiness check. -/
def load_dwd_stations (txt_lines : List String) : Except String (List Station) :=
  stationsLoop (txt_lines.drop 1)

example :
    load_dwd_stations
      ["Stations_id von_datum bis_datum Stationshoehe geoBreite geoLaenge Stationsname",
       "00044 20070401 20240108 44 52.9336 8.2370 Grossenkneten"] =
    .ok [Station.mk 44 20070401 20240108 (mkRat 529336 10000) (mkRat 8237 1000) "Grossenkneten"] := by
  decide

/-! ## Record extraction (`read_tmk_from_zip`) -/

/-- Handling of the matched row's (stripped) TMK field in `read_tmk_from_zip`
of `app.py`: an empty value, a value starting with `-999`, or any value
starting with `-` raises "TMK nicht verfügbar"; otherwise the value is parsed
by Python `float` (a parse failure raises `ValueError`). -/
def tmkValue (v : String) : Except String ℚ :=
  if v = "" ∨ pyStartswith v "-999" = true ∨ pyStartswith v "-" = true then
    .error "DWD: TMK nicht verfügbar für dieses Datum."
  else
    match pyFloat? v with
    | some q => .ok q
    | none => .error "ValueError: could not convert string to float"

/-- Embedding of the data-row scan of `read_tmk_from_zip` in `app.py`: rows too
short for the needed columns are skipped, as are rows whose stripped
`MESS_DATUM` field differs from the target; the first matching row's value is
handled by `tmkValue`.  If no row matches, the final "kein Datensatz" error is
raised. -/
def rowLoop (idx_date idx_tmk : Nat) (target : String) : List String → Except String ℚ
  | [] => .error "DWD: kein Datensatz für dieses Datum (Verzögerung/Station offline)."
  | line :: rest =>
    let cols := pySplitOn ';' line
    if cols.length ≤ max idx_date idx_tmk then rowLoop idx_date idx_tmk target rest
    else if pyStrip (cols.getD idx_date "") ≠ target then rowLoop idx_date idx_tmk target rest
    else tmkValue (pyStrip (cols.getD idx_tmk ""))

/-- Embedding of `read_tmk_from_zip` of `app.py` from the decoded payload text
onward (the zip container and `latin-1` decoding are I/O and modelled by
handing the payload as its list of lines — see `read_tmk_from_zip`).  The
header is split on `;` and must contain `MESS_DATUM` and `TMK`; their first
indices are taken, then the data rows are scanned by `rowLoop`. -/
def read_tmk (lines : List String) (yyyymmdd : Nat) : Except String ℚ :=
  match lines with
  | [] => .error "IndexError: list index out of range"
  | header :: rest =>
    let hdr := pySplitOn ';' header
    if hdr.contains "MESS_DATUM" && hdr.contains "TMK" then
      rowLoop (hdr.indexOf "MESS_DATUM") (hdr.indexOf "TMK") (pyStr yyyymmdd) rest
    else .error "Spalten MESS_DATUM/TMK nicht gefunden."

/-- Model of the zip container handed to `read_tmk_from_zip`: either it holds a
`produkt_*.txt` member (modelled by its decoded lines) or it does not. -/
structure ZipFile where
  produkt : Option (List String)
deriving DecidableEq

/-- Embedding of the container handling of `read_tmk_from_zip` in `app.py`: a
missing `produkt_*.txt` member raises; otherwise the payload lines are
scanned by `read_tmk`. -/
def read_tmk_from_zip (z : ZipFile) (yyyymmdd : Nat) : Except String ℚ :=
  match z.produkt with
  | none => .error "ZIP enthält keine produkt_*.txt Datei."
  | some lines => read_tmk lines yyyymmdd

example :
    read_tmk ["STATIONS_ID;MESS_DATUM;TMK;eor", "  44;20240110;   5.0;eor"] 20240110 = .ok 5 := by
  decide

example :
    read_tmk ["STATIONS_ID;MESS_DATUM;TMK;eor", "  44;20240109;   5.0;eor"] 20240110 =
    .error "DWD: kein Datensatz für dieses Datum (Verzögerung/Station offline)." := by
  decide

/-! ## Nearest station (`nearest_station_for_date`) -/

/-- Embedding of the skip conditions of the first loop of
`nearest_station_for_date` in `app.py`: a station participates when its `von`
bound is absent (`0`) or at most the day, and its `bis` bound is absent (`0`)
or at least the day. -/
def stationValid (day_int : Nat) (s : Station) : Bool :=
  decide ((s.von = 0 ∨ s.von ≤ day_int) ∧ (s.bis = 0 ∨ day_int ≤ s.bis))

/-- Initial `best_d` of `nearest_station_for_date` in `app.py` (`1e18`). -/
def BIG : ℚ := 1000000000000000000

/-- Embedding of a selection loop of `nearest_station_for_date` in `app.py`:
walks the station list, skipping stations for which `keep` is false, and
replaces the current best exactly when the distance is strictly below the
best distance so far. -/
def scanLoop (dist : Station → ℚ) (keep : Station → Bool) :
    List Station → Option (Station × ℚ) → ℚ → Option (Station × ℚ) × ℚ
  | [], best, bd => (best, bd)
  | s :: rest, best, bd =>
    if keep s then
      if dist s < bd then scanLoop dist keep rest (some (s, dist s)) (dist s)
      else scanLoop dist keep rest best bd
    else scanLoop dist keep rest best bd

/-- Second half of `nearest_station_for_date` of `app.py`: if the restricted
pass produced no best station, run the unrestricted pass (carrying over the
`best_d` left by the first pass, exactly as the source does), and raise if
still nothing was found. -/
def nearestStep2 (dist : Station → ℚ) (stations : List Station) :
    Option (Station × ℚ) × ℚ → Except String (Station × ℚ)
  | (some p, _) => .ok p
  | (none, bd) =>
    match scanLoop dist (fun _ => true) stations none bd with
    | (some p, _) => .ok p
    | (none, _) => .error "Keine DWD-Station gefunden."

/-- Embedding of `nearest_station_for_date` of `app.py`, abstracted over the
distance function (`haversine_km lat lon s.lat s.lon` in the source, whose
floating-point arithmetic sits outside the executable embedding): first pass
restricted by the validity window, second pass unrestricted if the first
found nothing, error if still nothing. -/
def nearest_station_for_date (dist : Station → ℚ) (day_int : Nat) (stations : List Station) :
    Except String (Station × ℚ) :=
  nearestStep2 dist stations (scanLoop dist (stationValid day_int) stations none BIG)

/-- First element of `b :: l` attaining the minimum of `dist` (strict
improvement wins, ties keep the earlier element) — the selection order of the
loops in `nearest_station_for_date`. -/
def leftmostMin (dist : Station → ℚ) (b : Station) : List Station → Station
  | [] => b
  | s :: rest => if dist s < dist b then leftmostMin dist s rest else leftmostMin dist b rest

lemma scanLoop_filter (dist : Station → ℚ) (keep : Station → Bool) :
    ∀ (l : List Station) (best : Option (Station × ℚ)) (bd : ℚ),
      scanLoop dist keep l best bd = scanLoop dist (fun _ => true) (l.filter keep) best bd := by
  intro l
  induction l with
  | nil => intro best bd; rfl
  | cons s rest ih =>
    intro best bd
    by_cases hk : keep s
    · rw [List.filter_cons_of_pos hk]
      by_cases hd : dist s < bd
      · rw [scanLoop, if_pos hk, if_pos hd, scanLoop, if_pos rfl, if_pos hd, ih]
      · rw [scanLoop, if_pos hk, if_neg hd, scanLoop, if_pos rfl, if_neg hd, ih]
    · rw [List.filter_cons_of_neg (by simpa using hk), scanLoop,
        if_neg hk, ih]

lemma scanLoop_some (dist : Station → ℚ) :
    ∀ (l : List Station) (b : Station),
      scanLoop dist (fun _ => true) l (some (b, dist b)) (dist b) =
        (some (leftmostMin dist b l, dist (leftmostMin dist b l)),
         dist (leftmostMin dist b l)) := by
  intro l
  induction l with
  | nil => intro b; rfl
  | cons s rest ih =>
    intro b
    by_cases hd : dist s < dist b
    · rw [scanLoop, if_pos rfl, if_pos hd, ih s, leftmostMin, if_pos hd]
    · rw [scanLoop, if_pos rfl, if_neg hd, ih b, leftmostMin, if_neg hd]

lemma scanLoop_cons_of_lt (dist : Station → ℚ) (s : Station) (rest : List Station) (bd : ℚ)
    (hs : dist s < bd) :
    scanLoop dist (fun _ => true) (s :: rest) none bd =
      (some (leftmostMin dist s rest, dist (leftmostMin dist s rest)),
       dist (leftmostMin dist s rest)) := by
  rw [scanLoop, if_pos rfl, if_pos hs, scanLoop_some]

lemma scanLoop_stays_some (dist : Station → ℚ) (keep : Station → Bool) :
    ∀ (l : List Station) (p : Station × ℚ) (bd : ℚ),
      ∃ q, (scanLoop dist keep l (some p) bd).1 = some q := by
  intro l
  induction l with
  | nil => intro p bd; exact ⟨p, rfl⟩
  | cons s rest ih =>
    intro p bd
    by_cases hk : keep s
    · by_cases hd : dist s < bd
      · rw [scanLoop, if_pos hk, if_pos hd]; exact ih _ _
      · rw [scanLoop, if_pos hk, if_neg hd]; exact ih _ _
    · rw [scanLoop, if_neg hk]; exact ih _ _

lemma scanLoop_none_bd (dist : Station → ℚ) (keep : Station → Bool) :
    ∀ (l : List Station) (bd : ℚ),
      (scanLoop dist keep l none bd).1 = none → scanLoop dist keep l none bd = (none, bd) := by
  intro l
  induction l with
  | nil => intro bd _; rfl
  | cons s rest ih =>
    intro bd h
    by_cases hk : keep s
    · by_cases hd : dist s < bd
      · exfalso
        rw [scanLoop, if_pos hk, if_pos hd] at h
        obtain ⟨q, hq⟩ := scanLoop_stays_some dist keep rest (s, dist s) (dist s)
        rw [h] at hq
        exact Option.noConfusion hq
      · rw [scanLoop, if_pos hk, if_neg hd] at h ⊢
        exact ih bd h
    · rw [scanLoop, if_neg hk] at h ⊢
      exact ih bd h

lemma leftmostMin_min (dist : Station → ℚ) :
    ∀ (l : List Station) (b : Station),
      dist (leftmostMin dist b l) ≤ dist b ∧
        ∀ t ∈ l, dist (leftmostMin dist b l) ≤ dist t := by
  intro l
  induction l with
  | nil => intro b; exact ⟨le_refl _, by intro t ht; cases ht⟩
  | cons s rest ih =>
    intro b
    by_cases hd : dist s < dist b
    · rw [leftmostMin, if_pos hd]
      refine ⟨le_of_lt (lt_of_le_of_lt (ih s).1 hd), ?_⟩
      intro t ht
      rcases List.mem_cons.mp ht with h | h
      · rw [h]; exact (ih s).1
      · exact (ih s).2 t h
    · rw [leftmostMin, if_neg hd]
      refine ⟨(ih b).1, ?_⟩
      intro t ht
      rcases List.mem_cons.mp ht with h | h
      · rw [h]; exact le_trans (ih b).1 (not_lt.mp hd)
      · exact (ih b).2 t h

lemma leftmostMin_leftmost (dist : Station → ℚ) :
    ∀ (l : List Station) (b : Station),
      ∃ i : Nat, (b :: l)[i]? = some (leftmostMin dist b l) ∧
        ∀ j : Nat, j < i → ∀ t, (b :: l)[j]? = some t → dist (leftmostMin dist b l) < dist t := by
  intro l
  induction l with
  | nil =>
    intro b
    refine ⟨0, rfl, ?_⟩
    intro j hj t ht
    omega
  | cons s rest ih =>
    intro b
    by_cases hd : dist s < dist b
    · obtain ⟨i, hi, hj⟩ := ih s
      rw [leftmostMin, if_pos hd]
      refine ⟨i + 1, ?_, ?_⟩
      · rw [List.getElem?_cons_succ]
        exact hi
      · intro j hjlt t ht
        rcases j with _ | j1
        · rw [List.getElem?_cons_zero] at ht
          have hb : b = t := Option.some.inj ht
          rw [← hb]
          exact lt_of_le_of_lt (leftmostMin_min dist rest s).1 hd
        · rw [List.getElem?_cons_succ] at ht
          exact hj j1 (by omega) t ht
    · obtain ⟨i, hi, hj⟩ := ih b
      rw [leftmostMin, if_neg hd]
      rcases i with _ | i1
      · rw [List.getElem?_cons_zero] at hi
        refine ⟨0, ?_, ?_⟩
        · rw [List.getElem?_cons_zero, hi]
        · intro j hjlt t ht
          omega
      · rw [List.getElem?_cons_succ] at hi
        have hmb : dist (leftmostMin dist b rest) < dist b :=
          hj 0 (by omega) b List.getElem?_cons_zero
        refine ⟨i1 + 2, ?_, ?_⟩
        · rw [List.getElem?_cons_succ, List.getElem?_cons_succ]
          exact hi
        · intro j hjlt t ht
          rcases j with _ | j1
          · rw [List.getElem?_cons_zero] at ht
            have hb : b = t := Option.some.inj ht
            rw [← hb]
            exact hmb
          · rcases j1 with _ | j2
            · rw [List.getElem?_cons_succ, List.getElem?_cons_zero] at ht
              have hs : s = t := Option.some.inj ht
              rw [← hs]
              exact lt_of_lt_of_le hmb (not_lt.mp hd)
            · rw [List.getElem?_cons_succ, List.getElem?_cons_succ] at ht
              refine hj (j2 + 1) (by omega) t ?_
              rw [List.getElem?_cons_succ]
              exact ht

lemma leftmostMin_mem (dist : Station → ℚ) :
    ∀ (l : List Station) (b : Station), leftmostMin dist b l ∈ b :: l := by
  intro l b
  obtain ⟨i, hi, _⟩ := leftmostMin_leftmost dist l b
  exact List.getElem?_mem hi

lemma leftmostMin_min_all (dist : Station → ℚ) (l : List Station) (b : Station) :
    ∀ t ∈ b :: l, dist (leftmostMin dist b l) ≤ dist t := by
  intro t ht
  rcases List.mem_cons.mp ht with h | h
  · rw [h]
    exact (leftmostMin_min dist l b).1
  · exact (leftmostMin_min dist l b).2 t h

/-- Candidate pool actually searched by `nearest_station_for_date`: the
window-restricted set if it is non-empty, otherwise the full catalog. -/
def nearestPool (day_int : Nat) (stations : List Station) : List Station :=
  if (stations.filter (stationValid day_int)).isEmpty then stations
  else stations.filter (stationValid day_int)

lemma scanLoop_nil (dist : Station → ℚ) (keep : Station → Bool)
    (best : Option (Station × ℚ)) (bd : ℚ) : scanLoop dist keep [] best bd = (best, bd) := rfl

lemma nearest_station_nil (dist : Station → ℚ) (day_int : Nat) :
    nearest_station_for_date dist day_int [] = .error "Keine DWD-Station gefunden." := rfl

lemma nearest_station_of_filter_nil (dist : Station → ℚ) (day_int : Nat)
    (s0 : Station) (srest : List Station)
    (hc : (s0 :: srest).filter (stationValid day_int) = [])
    (hs0 : dist s0 < BIG) :
    nearest_station_for_date dist day_int (s0 :: srest) =
      .ok (leftmostMin dist s0 srest, dist (leftmostMin dist s0 srest)) := by
  rw [nearest_station_for_date, scanLoop_filter, hc, scanLoop_nil, nearestStep2,
    scanLoop_cons_of_lt dist s0 srest BIG hs0]

lemma nearest_station_of_filter_cons (dist : Station → ℚ) (day_int : Nat)
    (stations : List Station) (c0 : Station) (crest : List Station)
    (hc : stations.filter (stationValid day_int) = c0 :: crest)
    (hc0 : dist c0 < BIG) :
    nearest_station_for_date dist day_int stations =
      .ok (leftmostMin dist c0 crest, dist (leftmostMin dist c0 crest)) := by
  rw [nearest_station_for_date, scanLoop_filter, hc,
    scanLoop_cons_of_lt dist c0 crest BIG hc0, nearestStep2]

/-- Concrete stations used by the nearest-station witness. -/
def stationsC5 : List Station :=
  [Station.mk 2 0 0 48 11 "B", Station.mk 1 0 0 52 13 "A", Station.mk 3 20300101 0 50 10 "C"]

/-- Concrete distance function used by the nearest-station witness. -/
def distBySid : Station → ℚ := fun s => mkRat s.sid 1

/-- C5: nearest-station selection searches the window-restricted candidate set,
falling back to the full catalog when that set is empty; it returns the
minimum-distance candidate together with its distance, ties broken by first
occurrence in catalog order, and errors only on an empty catalog.  The
distance function is abstract, bounded by the source's `1e18` initial best
(satisfied by any haversine distance on Earth). -/
theorem nearest_station_for_date_spec
    (dist : Station → ℚ) (day_int : Nat) (stations : List Station)
    (hb : ∀ s ∈ stations, dist s < BIG) :
    (stations = [] →
      nearest_station_for_date dist day_int stations = .error "Keine DWD-Station gefunden.")
    ∧ (stations ≠ [] →
      ∃ s : Station,
        nearest_station_for_date dist day_int stations = .ok (s, dist s)
        ∧ s ∈ nearestPool day_int stations
        ∧ (∀ t ∈ nearestPool day_int stations, dist s ≤ dist t)
        ∧ (stations.filter (stationValid day_int) ≠ [] → stationValid day_int s = true)
        ∧ ∃ i : Nat, (nearestPool day_int stations)[i]? = some s ∧
            ∀ j : Nat, j < i → ∀ t, (nearestPool day_int stations)[j]? = some t →
              dist s < dist t) := by
  constructor
  · intro h
    subst h
    rfl
  · intro hne
    rcases hfc : stations.filter (stationValid day_int) with _ | ⟨c0, crest⟩
    · have hpool : nearestPool day_int stations = stations := by
        simp [nearestPool, hfc]
      rcases stations with _ | ⟨s0, srest⟩
      · exact absurd rfl hne
      · have hs0 : dist s0 < BIG := hb s0 (List.mem_cons_self s0 srest)
        refine ⟨leftmostMin dist s0 srest,
          nearest_station_of_filter_nil dist day_int s0 srest hfc hs0, ?_, ?_, ?_, ?_⟩
        · rw [hpool]
          exact leftmostMin_mem dist srest s0
        · rw [hpool]
          exact leftmostMin_min_all dist srest s0
        · intro hcon
          exact absurd rfl hcon
        · rw [hpool]
          exact leftmostMin_leftmost dist srest s0
    · have hc0mem : c0 ∈ stations :=
        (List.mem_filter.mp (by rw [hfc]; exact List.mem_cons_self c0 crest)).1
      have hc0 : dist c0 < BIG := hb c0 hc0mem
      have hpool : nearestPool day_int stations = c0 :: crest := by
        simp [nearestPool, hfc]
      refine ⟨leftmostMin dist c0 crest,
        nearest_station_of_filter_cons dist day_int stations c0 crest hfc hc0, ?_, ?_, ?_, ?_⟩
      · rw [hpool]
        exact leftmostMin_mem dist crest c0
      · rw [hpool]
        exact leftmostMin_min_all dist crest c0
      · intro hcon
        have hm : leftmostMin dist c0 crest ∈ stations.filter (stationValid day_int) := by
          rw [hfc]
          exact leftmostMin_mem dist crest c0
        exact (List.mem_filter.mp hm).2
      · rw [hpool]
        exact leftmostMin_leftmost dist crest c0

/-- Witness for C5 at a concrete catalog: three stations, one excluded by its
validity window, nearest chosen among the remaining two. -/
theorem nearest_station_for_date_spec_witness :
    stationsC5 ≠ [] ∧
    (∃ s : Station,
      nearest_station_for_date distBySid 20240101 stationsC5 = .ok (s, distBySid s)
      ∧ s ∈ nearestPool 20240101 stationsC5
      ∧ (∀ t ∈ nearestPool 20240101 stationsC5, distBySid s ≤ distBySid t)
      ∧ (stationsC5.filter (stationValid 20240101) ≠ [] → stationValid 20240101 s = true)
      ∧ ∃ i : Nat, (nearestPool 20240101 stationsC5)[i]? = some s ∧
          ∀ j : Nat, j < i → ∀ t, (nearestPool 20240101 stationsC5)[j]? = some t →
            distBySid s < distBySid t) :=
  ⟨by decide,
   (nearest_station_for_date_spec distBySid 20240101 stationsC5 (by decide)).2 (by decide)⟩

/-! ## HDD computation (`compute_hdd`) -/

lemma mkRat_one_eq (z : ℤ) : (mkRat z 1 : ℚ) = (z : ℚ) := by
  rw [Rat.mkRat_eq_div]
  norm_num

lemma mkRat_half_eq : (mkRat 1 2 : ℚ) = 1 / 2 := by
  rw [Rat.mkRat_eq_div]
  norm_num

/-- Round-half-to-even of a rational to the nearest integer — the rounding
Python's `round` applies. -/
def rndHalfEvenZ (q : ℚ) : ℤ :=
  let f := qfloor q
  let r := qSub q (mkRat f 1)
  if r < mkRat 1 2 then f
  else if mkRat 1 2 < r then f + 1
  else if f % 2 = 0 then f else f + 1

/-- Model of Python `round(q, 2)`: round-half-even at two decimal places.
Python rounds the binary double nearest to `q`; on the exact decimal values
the source manipulates the two agree. -/
def pyRound2 (q : ℚ) : ℚ := mkRat (rndHalfEvenZ (qMul q 100)) 100

/-- Embedding of `compute_hdd` of `app.py`: `max(0.0, round(tbase - tmean, 2))`. -/
def compute_hdd (tmean tbase : ℚ) : ℚ := pyMax 0 (pyRound2 (qSub tbase tmean))

lemma rndHalfEvenZ_nonneg (q : ℚ) (h : 0 ≤ q) : 0 ≤ rndHalfEvenZ q := by
  have hf : (0 : ℤ) ≤ qfloor q := by
    rw [qfloor_eq]
    exact Int.floor_nonneg.mpr h
  simp only [rndHalfEvenZ]
  split_ifs <;> omega

lemma rndHalfEvenZ_nonpos (q : ℚ) (h : q ≤ 0) : rndHalfEvenZ q ≤ 0 := by
  have hf : qfloor q ≤ 0 := by
    rw [qfloor_eq]
    calc ⌊q⌋ ≤ ⌊(0 : ℚ)⌋ := Int.floor_le_floor h
    _ = 0 := Int.floor_zero
  have hr : qSub q (mkRat (qfloor q) 1) = q - (⌊q⌋ : ℚ) := by
    rw [qSub_eq, mkRat_one_eq, qfloor_eq]
  have hplus : ¬ qSub q (mkRat (qfloor q) 1) < mkRat 1 2 → qfloor q + 1 ≤ 0 := by
    intro h1
    have h2 : (1 : ℚ) / 2 ≤ q - (⌊q⌋ : ℚ) := by
      rw [← mkRat_half_eq, ← hr]
      exact not_lt.mp h1
    have h3 : (⌊q⌋ : ℚ) ≤ q - 1 / 2 := by linarith
    have h4 : (⌊q⌋ : ℚ) < 0 := by linarith
    have h5 : ⌊q⌋ < 0 := by exact_mod_cast h4
    rw [qfloor_eq]
    omega
  simp only [rndHalfEvenZ]
  split_ifs with h1 h2 h3
  · exact hf
  · exact hplus h1
  · exact hf
  · exact hplus h1

lemma pyRound2_nonneg (q : ℚ) (h : 0 ≤ q) : 0 ≤ pyRound2 q := by
  refine mkRat_nonneg_of _ _ (rndHalfEvenZ_nonneg _ ?_)
  rw [qMul_eq]
  positivity

lemma pyRound2_nonpos (q : ℚ) (h : q ≤ 0) : pyRound2 q ≤ 0 := by
  rw [pyRound2, Rat.mkRat_eq_div]
  have hz : rndHalfEvenZ (qMul q 100) ≤ 0 := by
    refine rndHalfEvenZ_nonpos _ ?_
    rw [qMul_eq]
    nlinarith
  have : ((rndHalfEvenZ (qMul q 100) : ℤ) : ℚ) ≤ 0 := by exact_mod_cast hz
  have h100 : (0 : ℚ) < ((100 : ℕ) : ℚ) := by norm_num
  exact div_nonpos_of_nonpos_of_nonneg this h100.le

lemma pyRound2_zero : pyRound2 0 = 0 := by decide

/-- C8: the HDD calculator returns `max(0, tbase − tmean)` rounded to two
decimal places — under either reading of the claim (rounding inside or
outside the clamp gives the same value) — the result is always `≥ 0`, and the
function is total (no failure modes, visible in its type `ℚ → ℚ → ℚ`). -/
theorem compute_hdd_spec (tmean tbase : ℚ) :
    compute_hdd tmean tbase = max 0 (pyRound2 (tbase - tmean))
    ∧ compute_hdd tmean tbase = pyRound2 (max 0 (tbase - tmean))
    ∧ 0 ≤ compute_hdd tmean tbase := by
  have h1 : compute_hdd tmean tbase = max 0 (pyRound2 (tbase - tmean)) := by
    rw [compute_hdd, pyMax_eq, qSub_eq]
  refine ⟨h1, ?_, ?_⟩
  · rw [h1]
    rcases le_or_lt (tbase - tmean) 0 with h | h
    · rw [max_eq_left h, pyRound2_zero, max_eq_left (pyRound2_nonpos _ h)]
    · rw [max_eq_right h.le, max_eq_right (pyRound2_nonneg _ h.le)]
  · rw [h1]
    exact le_max_left _ _

/-! ## Haversine distance (`haversine_km`) -/

/-- Model of Python `math.radians`. -/
noncomputable def radians (x : ℝ) : ℝ := x * (Real.pi / 180)

/-- Embedding of `haversine_km` of `app.py` over the real numbers (the
source's floating-point doubles are modelled exactly by `ℝ`): Earth radius
`R = 6371.0` km, `a = sin²(Δφ/2) + cos φ₁ cos φ₂ sin²(Δλ/2)`, distance
`2 R asin(√a)`. -/
noncomputable def haversine_km (lat1 lon1 lat2 lon2 : ℝ) : ℝ :=
  2 * 6371 * Real.arcsin (Real.sqrt
    (Real.sin (radians (lat2 - lat1) / 2) ^ 2 +
     Real.cos (radians lat1) * Real.cos (radians lat2) *
       Real.sin (radians (lon2 - lon1) / 2) ^ 2))

/-- C9: the haversine distance (Earth radius 6371.0 km) is symmetric in its
two coordinate pairs, and the distance from any point to itself is zero. -/
theorem haversine_km_metric :
    (∀ lat1 lon1 lat2 lon2 : ℝ,
      haversine_km lat1 lon1 lat2 lon2 = haversine_km lat2 lon2 lat1 lon1)
    ∧ ∀ lat lon : ℝ, haversine_km lat lon lat lon = 0 := by
  have hsin : ∀ x y : ℝ,
      Real.sin (radians (x - y) / 2) ^ 2 = Real.sin (radians (y - x) / 2) ^ 2 := by
    intro x y
    have hneg : radians (x - y) / 2 = -(radians (y - x) / 2) := by
      simp only [radians]
      ring
    rw [hneg, Real.sin_neg]
    ring
  constructor
  · intro lat1 lon1 lat2 lon2
    rw [haversine_km, haversine_km, hsin lat2 lat1, hsin lon2 lon1,
      mul_comm (Real.cos (radians lat1)) (Real.cos (radians lat2))]
  · intro lat lon
    rw [haversine_km, sub_self, sub_self]
    simp [radians, Real.sqrt_zero, Real.arcsin_zero]

/-! ## Non-negativity of extracted values (strip/parse lemmas) -/

lemma dropWhile_head_false (p : Char → Bool) :
    ∀ (l : List Char) (c : Char) (cs : List Char), l.dropWhile p = c :: cs → p c = false := by
  intro l
  induction l with
  | nil =>
    intro c cs h
    exact absurd h (by simp)
  | cons a l ih =>
    intro c cs h
    rw [List.dropWhile_cons] at h
    by_cases hp : p a
    · rw [if_pos hp] at h
      exact ih c cs h
    · rw [if_neg hp] at h
      have : a = c := (List.cons.inj h).1
      rw [← this]
      exact Bool.of_not_eq_true hp

lemma dropWhile_prefix_decomp (p : Char → Bool) :
    ∀ l : List Char, ∃ u, l = u ++ l.dropWhile p := by
  intro l
  induction l with
  | nil => exact ⟨[], rfl⟩
  | cons a l ih =>
    rw [List.dropWhile_cons]
    by_cases hp : p a
    · obtain ⟨u, hu⟩ := ih
      rw [if_pos hp]
      exact ⟨a :: u, by rw [List.cons_append, ← hu]⟩
    · rw [if_neg hp]
      exact ⟨[], rfl⟩

lemma dropWhile_idem (p : Char → Bool) :
    ∀ l : List Char, (l.dropWhile p).dropWhile p = l.dropWhile p := by
  intro l
  induction l with
  | nil => rfl
  | cons a l ih =>
    rw [List.dropWhile_cons]
    by_cases hp : p a
    · rw [if_pos hp]
      exact ih
    · rw [if_neg hp, List.dropWhile_cons, if_neg hp]

lemma trimR_prefix (l : List Char) : ∃ u, l = trimR l ++ u := by
  obtain ⟨u, hu⟩ := dropWhile_prefix_decomp isPySpace l.reverse
  refine ⟨u.reverse, ?_⟩
  calc l = l.reverse.reverse := (List.reverse_reverse l).symm
  _ = (u ++ l.reverse.dropWhile isPySpace).reverse := by rw [← hu]
  _ = trimR l ++ u.reverse := by rw [List.reverse_append, trimR]

lemma trimR_head (l : List Char) (c : Char) (cs : List Char) (h : trimR l = c :: cs) :
    ∃ t, l = c :: t := by
  obtain ⟨u, hu⟩ := trimR_prefix l
  rw [h] at hu
  exact ⟨cs ++ u, hu⟩

lemma trimR_idem (l : List Char) : trimR (trimR l) = trimR l := by
  rw [trimR, trimR, List.reverse_reverse, dropWhile_idem]

lemma pyStripData_head_false (l : List Char) (c : Char) (cs : List Char)
    (h : pyStripData l = c :: cs) : isPySpace c = false := by
  rw [pyStripData] at h
  obtain ⟨t, ht⟩ := trimR_head (trimL l) c cs h
  exact dropWhile_head_false isPySpace l c t (by rw [← trimL, ht])

lemma trimL_eq_of_head_false (c : Char) (cs : List Char) (h : isPySpace c = false) :
    trimL (c :: cs) = c :: cs := by
  rw [trimL, List.dropWhile_cons, if_neg (by rw [h]; exact Bool.false_ne_true)]

lemma pyStripData_idem (l : List Char) : pyStripData (pyStripData l) = pyStripData l := by
  have hA : trimL (pyStripData l) = pyStripData l := by
    rcases hX : pyStripData l with _ | ⟨c, cs⟩
    · rfl
    · exact trimL_eq_of_head_false c cs (pyStripData_head_false l c cs hX)
  calc pyStripData (pyStripData l) = trimR (trimL (pyStripData l)) := rfl
  _ = trimR (pyStripData l) := by rw [hA]
  _ = trimR (trimR (trimL l)) := rfl
  _ = trimR (trimL l) := trimR_idem _
  _ = pyStripData l := rfl

lemma pyStrip_idem (s : String) : pyStrip (pyStrip s) = pyStrip s := by
  rw [pyStrip, pyStrip]
  exact congrArg String.mk (pyStripData_idem s.data)

lemma parseUnsignedDec_nonneg (s : String) (q : ℚ) (h : parseUnsignedDec s = some q) :
    0 ≤ q := by
  rw [parseUnsignedDec] at h
  split at h
  · split at h
    · have hq : mkRat (natOfDigits _ : ℤ) 1 = q := Option.some.inj h
      rw [← hq]
      exact mkRat_nonneg_of _ _ (Int.ofNat_nonneg _)
    · exact absurd h (by simp)
  · split at h
    · have hq := Option.some.inj h
      rw [← hq]
      exact mkRat_nonneg_of _ _ (by positivity)
    · exact absurd h (by simp)
  · exact absurd h (by simp)

lemma pyFloat?_nonneg_of_stripped (s0 : String) (q : ℚ)
    (hneg : pyStartswith (pyStrip s0) "-" = false)
    (h : pyFloat? (pyStrip s0) = some q) : 0 ≤ q := by
  rw [pyFloat?] at h
  simp only [pyStrip_idem] at h
  rw [hneg] at h
  simp only [Bool.false_eq_true, if_false] at h
  split at h
  · exact parseUnsignedDec_nonneg _ q h
  · exact parseUnsignedDec_nonneg _ q h

lemma tmkValue_nonneg (s0 : String) (q : ℚ) (h : tmkValue (pyStrip s0) = .ok q) : 0 ≤ q := by
  rw [tmkValue] at h
  split_ifs at h with hg
  push_neg at hg
  obtain ⟨-, -, hdash⟩ := hg
  split at h
  · have hq := Except.ok.inj h
    rw [← hq]
    exact pyFloat?_nonneg_of_stripped _ _ (Bool.of_not_eq_true hdash) (by assumption)
  · exact Except.noConfusion h

lemma rowLoop_nonneg (idx_date idx_tmk : Nat) (target : String) :
    ∀ (rows : List String) (q : ℚ), rowLoop idx_date idx_tmk target rows = .ok q → 0 ≤ q := by
  intro rows
  induction rows with
  | nil =>
    intro q h
    exact absurd h (by simp [rowLoop])
  | cons line rest ih =>
    intro q h
    rw [rowLoop] at h
    split_ifs at h with h1 h2
    · exact ih q h
    · exact ih q h
    · exact tmkValue_nonneg _ q h

/-- C10: whenever record extraction returns a mean-temperature value, that
value is non-negative — any field whose (stripped) text begins with a minus
sign, hence every sub-zero temperature, is rejected by the guard before
parsing, so only unsigned or plus-signed decimal values can be returned. -/
theorem read_tmk_from_zip_nonneg (z : ZipFile) (yyyymmdd : Nat) (q : ℚ)
    (h : read_tmk_from_zip z yyyymmdd = .ok q) : 0 ≤ q := by
  rw [read_tmk_from_zip.eq_def] at h
  split at h
  · exact Except.noConfusion h
  · rw [read_tmk.eq_def] at h
    split at h
    · exact Except.noConfusion h
    · simp only at h
      split_ifs at h
      exact rowLoop_nonneg _ _ _ _ q h

/-- Concrete payload used by the C10 witness. -/
def zipC10 : ZipFile :=
  ZipFile.mk (some ["STATIONS_ID;MESS_DATUM;TMK;eor", "  44;20240110;   5.0;eor"])

/-- Witness for C10: a concrete payload whose extraction succeeds with `5.0`,
and the theorem yields its non-negativity. -/
theorem read_tmk_from_zip_nonneg_witness :
    read_tmk_from_zip zipC10 20240110 = .ok 5 ∧ (0 : ℚ) ≤ 5 :=
  ⟨by decide, read_tmk_from_zip_nonneg zipC10 20240110 5 (by decide)⟩

/-! ## Calendar dates -/

/-- Calendar date, as handled by `datetime.date` in `app.py`. -/
structure Date where
  y : Nat
  m : Nat
  d : Nat
deriving DecidableEq

/-- Embedding of `ymd_to_int` of `app.py`. -/
def ymd_to_int (dd : Date) : Nat := dd.y * 10000 + dd.m * 100 + dd.d

/-- Gregorian leap-year rule (as implemented by Python `datetime`). -/
def isLeap (y : Nat) : Bool := y % 4 == 0 && (y % 100 != 0 || y % 400 == 0)

/-- Days in a month (as implemented by Python `datetime`). -/
def daysInMonth (y m : Nat) : Nat :=
  if m = 2 then (if isLeap y then 29 else 28)
  else if m = 4 ∨ m = 6 ∨ m = 9 ∨ m = 11 then 30 else 31

/-- Model of Python `datetime.date.fromisoformat` on the strict `YYYY-MM-DD`
format: exactly ten characters, digits and two dashes, month and day within
calendar range. -/
def parse_iso_date (s : String) : Option Date :=
  match s.data with
  | [y1, y2, y3, y4, c1, m1, m2, c2, d1, d2] =>
    if ([y1, y2, y3, y4, m1, m2, d1, d2].all Char.isDigit) && (c1 == '-') && (c2 == '-') then
      if 1 ≤ natOfDigits ⟨[y1, y2, y3, y4]⟩ ∧ 1 ≤ natOfDigits ⟨[m1, m2]⟩ ∧
          natOfDigits ⟨[m1, m2]⟩ ≤ 12 ∧ 1 ≤ natOfDigits ⟨[d1, d2]⟩ ∧
          natOfDigits ⟨[d1, d2]⟩ ≤ daysInMonth (natOfDigits ⟨[y1, y2, y3, y4]⟩) (natOfDigits ⟨[m1, m2]⟩) then
        some (Date.mk (natOfDigits ⟨[y1, y2, y3, y4]⟩) (natOfDigits ⟨[m1, m2]⟩) (natOfDigits ⟨[d1, d2]⟩))
      else none
    else none
  | _ => none

/-- Strict ordering of calendar dates (lexicographic on year, month, day). -/
def dateLt (a b : Date) : Bool :=
  decide (a.y < b.y ∨ (a.y = b.y ∧ (a.m < b.m ∨ (a.m = b.m ∧ a.d < b.d))))

/-- Predecessor day of a calendar date. -/
def prevDay (dd : Date) : Date :=
  if 2 ≤ dd.d then Date.mk dd.y dd.m (dd.d - 1)
  else if 2 ≤ dd.m then Date.mk dd.y (dd.m - 1) (daysInMonth dd.y (dd.m - 1))
  else Date.mk (dd.y - 1) 12 31

example : parse_iso_date "2026-12-31" = some (Date.mk 2026 12 31) := by decide
example : parse_iso_date "2024/13/40" = none := by decide
example : prevDay (Date.mk 2024 1 10) = Date.mk 2024 1 9 := by decide
example : prevDay (Date.mk 2024 3 1) = Date.mk 2024 2 29 := by decide

/-! ## Spec-side model of record extraction with fallback (for comparison) -/

/-- Modelled from the spec (§4.6), for comparison with `read_tmk` of the
source: spec-side parse of a temperature field — locale-tolerant (`,` as
decimal separator), sentinel values at or below −900 are missing, magnitudes
above 100 are divided by 10. -/
def specParseTemp (v : String) : Option ℚ :=
  match pyFloat? (pyReplace v ',' '.') with
  | none => none
  | some q =>
    if q ≤ -900 then none
    else if q < -100 ∨ 100 < q then some (mkRat q.num (q.den * 10))
    else some q

/-- Spec-side row lookup: first row whose date field matches the target,
returning the stripped value field. -/
def specLookup (idx_date idx_tmk : Nat) (target : String) : List String → Option String
  | [] => none
  | line :: rest =>
    let cols := pySplitOn ';' line
    if cols.length ≤ max idx_date idx_tmk then specLookup idx_date idx_tmk target rest
    else if pyStrip (cols.getD idx_date "") = target then some (pyStrip (cols.getD idx_tmk ""))
    else specLookup idx_date idx_tmk target rest

/-- Spec-side fallback loop: try the current candidate date, else recurse on
the previous day; the counter is the number of candidates left. -/
def specGo (idx_date idx_tmk : Nat) (rows : List String) : Nat → Date → Except String (ℚ × Date)
  | 0, _ => .error "NoDataInRange"
  | k+1, cur =>
    match (specLookup idx_date idx_tmk (pyStr (ymd_to_int cur)) rows).bind specParseTemp with
    | some q => .ok (q, cur)
    | none => specGo idx_date idx_tmk rows k (prevDay cur)

/-- Modelled from the spec (§4.6): record extraction with maximum fallback
days `N` — for `back` in `0..N` try `targetDate − back` days and return the
first valid value together with the date actually used; fail with
`NoDataInRange` after all `N+1` candidates.  This definition follows the
spec's words and exists only to be compared with the source's `read_tmk`,
which implements no fallback. -/
def read_tmk_specModel (lines : List String) (target : Date) (N : Nat) : Except String (ℚ × Date) :=
  match lines with
  | [] => .error "NoData"
  | header :: rest =>
    if (pySplitOn ';' header).contains "MESS_DATUM" && (pySplitOn ';' header).contains "TMK" then
      specGo ((pySplitOn ';' header).indexOf "MESS_DATUM") ((pySplitOn ';' header).indexOf "TMK")
        rest (N + 1) target
    else .error "NoColumns"

/-! ## Orchestrator (`compute_for_plz` and the batch part of `index`) -/

/-- Semantic content of the `RowResult` dataclass of `app.py`: the source
stores every field pre-formatted as a string (`f"{lat:.5f}"`, `"—"` for
absent); here absent fields are `none` and values are kept unformatted. -/
structure RowResult where
  plz : String
  lat : Option ℚ
  lon : Option ℚ
  place : String
  station_id : Option Nat
  station_name : String
  dist_km : Option ℚ
  day : Date
  tmean : Option ℚ
  tbase : ℚ
  hdd : Option ℚ
  ok : Bool
  status : String
deriving DecidableEq

/-- Failure row built by the `except` branch of `compute_for_plz` in `app.py`:
all data fields absent, `ok = False`, the exception text as status. -/
def failRow (plz : String) (day : Date) (tbase : ℚ) (e : String) : RowResult :=
  RowResult.mk plz none none "—" none "—" none day none tbase none false e

/-- Effectful collaborators of `compute_for_plz`, passed as oracles: the
geocoder (`geocode_plz`, raising modelled as `Except.error`), the distance
function (`haversine_km` at the geocoded point), and the two zip fetchers
(`try_fetch_recent_zip` / `try_fetch_historical_zip`, `None` on any failure). -/
structure Net where
  geocode : String → Except String (ℚ × ℚ × String)
  dist : ℚ → ℚ → Station → ℚ
  fetchRecent : Nat → Option ZipFile
  fetchHist : Nat → Option ZipFile

/-- Embedding of `compute_for_plz` of `app.py`: geocode, nearest station, zip
fetch with recent→historical fallback, record extraction, HDD; any raising
step produces the `failRow` of the surrounding `try/except`. -/
def compute_for_plz (net : Net) (plz : String) (day : Date) (tbase : ℚ)
    (stations : List Station) : RowResult :=
  match net.geocode plz with
  | .error e => failRow plz day tbase e
  | .ok (lat, lon, place) =>
    match nearest_station_for_date (net.dist lat lon) (ymd_to_int day) stations with
    | .error e => failRow plz day tbase e
    | .ok (st, d) =>
      match (match net.fetchRecent st.sid with
             | some z => some (z, "recent")
             | none =>
               match net.fetchHist st.sid with
               | some z => some (z, "historical")
               | none => none) with
      | none => failRow plz day tbase "DWD ZIP nicht abrufbar (recent/historical)."
      | some (z, source) =>
        match read_tmk_from_zip z (ymd_to_int day) with
        | .error e => failRow plz day tbase e
        | .ok tmean =>
          RowResult.mk plz (some lat) (some lon) (if place = "" then "—" else place)
            (some st.sid) (st.name ++ " (" ++ source ++ ")") (some d) day (some tmean) tbase
            (some (compute_hdd tmean tbase)) true "OK"

/-- Embedding of the batch part of `index` in `app.py` (lines 460–462): the
catalog load `load_dwd_stations()` is called OUTSIDE any `try`, so a raising
load (modelled `Except.error`) propagates out of the request; on success one
`compute_for_plz` row is appended per postal code. -/
def index_rows (net : Net) (loadStations : Except String (List Station))
    (plz_list : List String) (day : Date) (tbase : ℚ) : Except String (List RowResult) :=
  match loadStations with
  | .error e => .error e
  | .ok stations => .ok (plz_list.map (fun plz => compute_for_plz net plz day tbase stations))

/-- Embedding of the batch-level validation of `index` in `app.py`: the date
string must parse via `date.fromisoformat`, then the base temperature (with
`,` replaced by `.`) must parse as a float; the first failing check sets
`fatal_error`.  No other check is performed. -/
def index_validate (day_str tbase_str : String) : Option String :=
  match parse_iso_date day_str with
  | none => some "Datum muss im Format YYYY-MM-DD sein."
  | some _ =>
    match pyFloat? (pyReplace tbase_str ',' '.') with
    | none => some "Tbase muss eine Zahl sein (z.B. 18.0)."
    | some _ => none

/-! ## Claims about record extraction (C2, C3) -/

lemma rowLoop_all_miss (idx_date idx_tmk : Nat) (target : String) :
    ∀ rows : List String,
      (∀ line ∈ rows, pyStrip ((pySplitOn ';' line).getD idx_date "") ≠ target) →
      rowLoop idx_date idx_tmk target rows =
        .error "DWD: kein Datensatz für dieses Datum (Verzögerung/Station offline)." := by
  intro rows
  induction rows with
  | nil => intro _; rfl
  | cons line rest ih =>
    intro hmiss
    rw [rowLoop]
    split_ifs with h1 h2
    · exact ih (fun l hl => hmiss l (List.mem_cons_of_mem _ hl))
    · exact ih (fun l hl => hmiss l (List.mem_cons_of_mem _ hl))
    · exact absurd (not_not.mp h2) (hmiss line (List.mem_cons_self _ _))

/-- C2 (amended): record extraction considers only the exact target date — it
performs no backward-day fallback.  If no data row carries the target date in
its `MESS_DATUM` field, extraction fails with the "kein Datensatz" error even
when neighbouring dates hold valid values. -/
theorem read_tmk_no_fallback (header : String) (rest : List String) (t : Nat)
    (h1 : (pySplitOn ';' header).contains "MESS_DATUM" = true)
    (h2 : (pySplitOn ';' header).contains "TMK" = true)
    (hmiss : ∀ line ∈ rest,
      pyStrip ((pySplitOn ';' line).getD ((pySplitOn ';' header).indexOf "MESS_DATUM") "") ≠
        pyStr t) :
    read_tmk (header :: rest) t =
      .error "DWD: kein Datensatz für dieses Datum (Verzögerung/Station offline)." := by
  simp only [read_tmk, h1, h2, Bool.and_self, if_true]
  exact rowLoop_all_miss _ _ _ rest hmiss

/-- Concrete payload for C2: the target date 2024-01-10 is absent, but the
previous day 2024-01-09 is present with the valid value `5.0`. -/
def linesC2 : List String := ["STATIONS_ID;MESS_DATUM;TMK;eor", "  44;20240109;   5.0;eor"]

/-- Counterexample to C2 as stated: with fallback days `N = 1` the claim
demands that extraction at target 2024-01-10 return `5.0` with date
2024-01-09 (as the spec-modelled extractor does), but the source's extractor
fails — it never looks at any earlier day. -/
theorem read_tmk_no_fallback_cex :
    read_tmk linesC2 20240110 =
      .error "DWD: kein Datensatz für dieses Datum (Verzögerung/Station offline)."
    ∧ read_tmk linesC2 20240109 = .ok 5
    ∧ read_tmk_specModel linesC2 (Date.mk 2024 1 10) 1 = .ok (5, Date.mk 2024 1 9) := by
  decide

/-- Witness for the amended C2 at a concrete payload. -/
theorem read_tmk_no_fallback_witness :
    read_tmk ["STATIONS_ID;MESS_DATUM;TMK;eor", "  44;20240108;   4.0;eor"] 20240110 =
      .error "DWD: kein Datensatz für dieses Datum (Verzögerung/Station offline)." :=
  read_tmk_no_fallback "STATIONS_ID;MESS_DATUM;TMK;eor" ["  44;20240108;   4.0;eor"] 20240110
    (by decide) (by decide) (by decide)

/-- Concrete payload for C3: a physically valid mean temperature of −5.2 °C
(strictly above the −900 sentinel threshold) at exactly the requested date. -/
def linesC3 : List String := ["STATIONS_ID;MESS_DATUM;TMK;eor", "  44;20240110;  -5.2;eor"]

/-- C3 evaluation at the failing input: the source rejects the valid negative
temperature −5.2 (parseable, strictly above −900) with "TMK nicht verfügbar"
because its guard rejects every value starting with `-`, while the spec's
sentinel rule (≤ −900 is missing) would return −5.2 — as the spec-modelled
extractor does. -/
theorem read_tmk_neg_rejected :
    read_tmk linesC3 20240110 = .error "DWD: TMK nicht verfügbar für dieses Datum."
    ∧ pyFloat? "-5.2" = some (mkRat (-26) 5)
    ∧ (-900 : ℚ) < mkRat (-26) 5
    ∧ read_tmk_specModel linesC3 (Date.mk 2024 1 10) 7 = .ok (mkRat (-26) 5, Date.mk 2024 1 10) := by
  decide

/-! ## Claims about station-catalog loading (C6, C7) -/

lemma stationsLoop_skip (line : String) (rest : List String)
    (hskip : (pyStrip line).data.isEmpty = true ∨ (pySplitWs line).length < 7 ∨
      pyIsDigit (pyStrip ((pySplitWs line).getD 0 "")) = false) :
    stationsLoop (line :: rest) = stationsLoop rest := by
  simp only [stationsLoop]
  by_cases h1 : (pyStrip line).data.isEmpty = true
  · rw [if_pos h1]
  · rw [if_neg h1]
    by_cases h2 : (pySplitWs line).length < 7
    · rw [if_pos h2]
    · rw [if_neg h2]
      have h3 : pyIsDigit (pyStrip ((pySplitWs line).getD 0 "")) = false := by
        rcases hskip with h | h | h
        · exact absurd h h1
        · exact absurd h h2
        · exact h
      rw [if_pos (by rw [h3]; rfl)]

lemma stationsLoop_abort (line : String) (rest : List String)
    (h1 : (pyStrip line).data.isEmpty = false)
    (h2 : ¬ (pySplitWs line).length < 7)
    (h3 : pyIsDigit (pyStrip ((pySplitWs line).getD 0 "")) = true)
    (hf : pyFloat? ((pySplitWs line).getD 4 "") = none) :
    stationsLoop (line :: rest) = .error "ValueError: could not convert string to float" := by
  simp only [stationsLoop]
  rw [if_neg (by rw [h1]; exact Bool.false_ne_true), if_neg h2,
    if_neg (by rw [h3]; simp), hf]

/-- C6 (amended): in the catalog-parsing loop, blank lines, records with fewer
than 7 fields, and records whose id is not all digits are skipped; but a
record whose latitude field fails to parse as a float aborts the whole load
with a `ValueError` (the remaining records are lost). -/
theorem load_dwd_stations_skip_vs_abort :
    (∀ (line : String) (rest : List String),
      ((pyStrip line).data.isEmpty = true ∨ (pySplitWs line).length < 7 ∨
        pyIsDigit (pyStrip ((pySplitWs line).getD 0 "")) = false) →
      stationsLoop (line :: rest) = stationsLoop rest)
    ∧ (∀ (line : String) (rest : List String),
      (pyStrip line).data.isEmpty = false →
      ¬ (pySplitWs line).length < 7 →
      pyIsDigit (pyStrip ((pySplitWs line).getD 0 "")) = true →
      pyFloat? ((pySplitWs line).getD 4 "") = none →
      stationsLoop (line :: rest) = .error "ValueError: could not convert string to float") :=
  ⟨stationsLoop_skip, stationsLoop_abort⟩

/-- Station-list header line used in the catalog counterexamples. -/
def hdrC6 : String :=
  "Stations_id von_datum bis_datum Stationshoehe geoBreite geoLaenge Stationsname"

/-- Well-formed station record. -/
def goodC6 : String := "00044 20070401 20240108 44 52.9336 8.2370 Grossenkneten"

/-- Station record with a malformed longitude field. -/
def badC6 : String := "00043 20070401 20240108 44 52.93 abc Oldenburg"

/-- Counterexample to C6 as stated: a single record with a malformed float
aborts the whole catalog load (the well-formed record parsed just before it
is lost), whereas without the malformed record the load succeeds. -/
theorem load_dwd_stations_abort_cex :
    load_dwd_stations [hdrC6, goodC6, badC6] =
      .error "ValueError: could not convert string to float"
    ∧ load_dwd_stations [hdrC6, goodC6] =
        .ok [Station.mk 44 20070401 20240108 (mkRat 529336 10000) (mkRat 8237 1000)
          "Grossenkneten"] := by
  decide

/-- Witness for the amended C6 at concrete lines: a short record is skipped, a
record with a malformed latitude aborts. -/
theorem load_dwd_stations_skip_vs_abort_witness :
    stationsLoop ["----- ---", goodC6] = stationsLoop [goodC6]
    ∧ stationsLoop ["00043 20070401 20240108 44 bad 8.0 Oldenburg"] =
        .error "ValueError: could not convert string to float" :=
  ⟨load_dwd_stations_skip_vs_abort.1 "----- ---" [goodC6] (by decide),
   load_dwd_stations_skip_vs_abort.2 "00043 20070401 20240108 44 bad 8.0 Oldenburg" []
     (by decide) (by decide) (by decide) (by decide)⟩

lemma stationsLoop_all_skip :
    ∀ l : List String,
      (∀ line ∈ l, (pyStrip line).data.isEmpty = true ∨ (pySplitWs line).length < 7 ∨
        pyIsDigit (pyStrip ((pySplitWs line).getD 0 "")) = false) →
      stationsLoop l = .ok [] := by
  intro l
  induction l with
  | nil => intro _; rfl
  | cons line rest ih =>
    intro hskip
    rw [stationsLoop_skip line rest (hskip line (List.mem_cons_self _ _))]
    exact ih (fun x hx => hskip x (List.mem_cons_of_mem _ hx))

/-- C7 (amended): a station-catalog load in which every record line is
skipped returns the empty list as a SUCCESS (`.ok []`) — there is no
`NoStations` hard failure; the emptiness only surfaces downstream, where
nearest-station lookup on an empty catalog raises "Keine DWD-Station
gefunden". -/
theorem load_dwd_stations_empty_is_success (txt_lines : List String)
    (hskip : ∀ line ∈ txt_lines.drop 1,
      (pyStrip line).data.isEmpty = true ∨ (pySplitWs line).length < 7 ∨
        pyIsDigit (pyStrip ((pySplitWs line).getD 0 "")) = false) :
    load_dwd_stations txt_lines = .ok []
    ∧ ∀ (dist : Station → ℚ) (day_int : Nat),
        nearest_station_for_date dist day_int [] = .error "Keine DWD-Station gefunden." := by
  constructor
  · rw [load_dwd_stations]
    exact stationsLoop_all_skip _ hskip
  · intro dist day_int
    rfl

/-- Counterexample to C7 as stated: a load whose body contains no parseable
record returns `.ok []` — a successful result with an empty collection, not a
hard failure. -/
theorem load_dwd_stations_empty_cex :
    load_dwd_stations [hdrC6, "----- ---"] = .ok ([] : List Station) := by
  decide

/-- Witness for the amended C7 at a concrete header-only catalog text. -/
theorem load_dwd_stations_empty_is_success_witness :
    load_dwd_stations [hdrC6, "----- ---"] = .ok []
    ∧ ∀ (dist : Station → ℚ) (day_int : Nat),
        nearest_station_for_date dist day_int [] = .error "Keine DWD-Station gefunden." :=
  load_dwd_stations_empty_is_success [hdrC6, "----- ---"] (by decide)

/-! ## Claims about the batch orchestrator (C1, C4) -/

lemma compute_for_plz_plz (net : Net) (plz : String) (day : Date) (tbase : ℚ)
    (stations : List Station) : (compute_for_plz net plz day tbase stations).plz = plz := by
  rw [compute_for_plz.eq_def]
  split
  · rfl
  · split
    · rfl
    · split
      · rfl
      · split
        · rfl
        · rfl

/-- C1 (amended): given a successfully loaded catalog, the batch produces
exactly one row per postal code — `compute_for_plz` is total, so no per-item
stage failure (geocoding, station lookup, archive fetch, extraction) can
abort the batch, and a geocoding failure is captured into that row's status
with `ok = false`; but when the Station Catalog load fails, `index` calls it
outside any `try`, so the whole request aborts with that error instead of
reporting it per row. -/
theorem orchestrator_per_item_isolation (net : Net) (plzs : List String) (day : Date)
    (tbase : ℚ) :
    (∀ stations : List Station,
      ∃ rows, index_rows net (.ok stations) plzs day tbase = .ok rows
        ∧ rows.length = plzs.length
        ∧ ∀ (i : Nat) (hi : i < plzs.length),
            ∃ hr : i < rows.length,
              rows.get ⟨i, hr⟩ = compute_for_plz net (plzs.get ⟨i, hi⟩) day tbase stations
              ∧ (rows.get ⟨i, hr⟩).plz = plzs.get ⟨i, hi⟩)
    ∧ (∀ (stations : List Station) (p e : String), net.geocode p = .error e →
        (compute_for_plz net p day tbase stations).ok = false
        ∧ (compute_for_plz net p day tbase stations).status = e)
    ∧ (∀ e, index_rows net (.error e) plzs day tbase = .error e) := by
  refine ⟨?_, ?_, ?_⟩
  · intro stations
    refine ⟨plzs.map (fun plz => compute_for_plz net plz day tbase stations), rfl,
      List.length_map plzs _, ?_⟩
    intro i hi
    have hr : i < (plzs.map (fun plz => compute_for_plz net plz day tbase stations)).length := by
      rw [List.length_map]
      exact hi
    have hget : (plzs.map (fun plz => compute_for_plz net plz day tbase stations)).get ⟨i, hr⟩ =
        compute_for_plz net (plzs.get ⟨i, hi⟩) day tbase stations := by
      rw [List.get_eq_getElem, List.getElem_map]
      rfl
    refine ⟨hr, hget, ?_⟩
    rw [hget]
    exact compute_for_plz_plz net _ day tbase stations
  · intro stations p e hge
    rw [compute_for_plz.eq_def, hge]
    exact ⟨rfl, rfl⟩
  · intro e
    rfl

/-- Concrete oracles for the C1 witness: geocoding succeeds only for postal
code 10115; the recent zip holds data for 2024-01-10. -/
def netC1 : Net :=
  Net.mk
    (fun p =>
      if p = "10115" then .ok (52, 13, "Berlin")
      else .error "PLZ konnte nicht geocodiert werden (keine Koordinaten).")
    (fun _ _ s => mkRat s.sid 1)
    (fun _ => some zipC10)
    (fun _ => none)

/-- Witness for the amended C1: a two-item batch with one failing geocode
yields one row per item; the failing item's row carries `ok = false` and the
geocoder's error text; a failing catalog load aborts the request. -/
theorem orchestrator_per_item_isolation_witness :
    (∃ rows, index_rows netC1 (.ok stationsC5) ["10115", "99999"] (Date.mk 2024 1 10) 18 =
        .ok rows
      ∧ rows.length = (["10115", "99999"] : List String).length
      ∧ ∀ (i : Nat) (hi : i < (["10115", "99999"] : List String).length),
          ∃ hr : i < rows.length,
            rows.get ⟨i, hr⟩ =
              compute_for_plz netC1 ((["10115", "99999"] : List String).get ⟨i, hi⟩)
                (Date.mk 2024 1 10) 18 stationsC5
            ∧ (rows.get ⟨i, hr⟩).plz = (["10115", "99999"] : List String).get ⟨i, hi⟩)
    ∧ ((compute_for_plz netC1 "99999" (Date.mk 2024 1 10) 18 stationsC5).ok = false
      ∧ (compute_for_plz netC1 "99999" (Date.mk 2024 1 10) 18 stationsC5).status =
          "PLZ konnte nicht geocodiert werden (keine Koordinaten).")
    ∧ index_rows netC1 (.error "Stationsliste nicht abrufbar") ["10115", "99999"]
        (Date.mk 2024 1 10) 18 = .error "Stationsliste nicht abrufbar" :=
  ⟨(orchestrator_per_item_isolation netC1 ["10115", "99999"] (Date.mk 2024 1 10) 18).1
      stationsC5,
   (orchestrator_per_item_isolation netC1 ["10115", "99999"] (Date.mk 2024 1 10) 18).2.1
      stationsC5 "99999" "PLZ konnte nicht geocodiert werden (keine Koordinaten)." (by decide),
   (orchestrator_per_item_isolation netC1 ["10115", "99999"] (Date.mk 2024 1 10) 18).2.2
      "Stationsliste nicht abrufbar"⟩

/-- Counterexample to C1 as stated: when the Station Catalog load fails, the
request does NOT return one row per postal code with the failure in each
row's status — `index` calls `load_dwd_stations()` outside the per-item
`try`, so the whole request aborts with the load error. -/
theorem orchestrator_catalog_failure_aborts_cex :
    index_rows netC1 (.error "Stationsliste nicht abrufbar") ["10115"] (Date.mk 2024 1 10) 18 =
      .error "Stationsliste nicht abrufbar" := by
  rfl

/-- C4 (amended): batch validation checks only that the date string parses as
a calendar date and the base temperature parses as a number — there is no
future-date check, so any syntactically valid future date passes validation
and the items are processed like any other date. -/
theorem index_validate_no_future_check (day_str tbase_str : String) (d : Date) (q : ℚ)
    (hd : parse_iso_date day_str = some d)
    (ht : pyFloat? (pyReplace tbase_str ',' '.') = some q) :
    index_validate day_str tbase_str = none := by
  rw [index_validate, hd, ht]

/-- Witness for the amended C4 at a concrete future date (relative to the
verification date 2026-10-12). -/
theorem index_validate_no_future_check_witness :
    index_validate "2026-12-31" "18.0" = none :=
  index_validate_no_future_check "2026-12-31" "18.0" (Date.mk 2026 12 31) 18
    (by decide) (by decide)

/-- Payload holding data for the future date 2026-12-31, used by the C4
counterexample. -/
def zipC4 : ZipFile :=
  ZipFile.mk (some ["STATIONS_ID;MESS_DATUM;TMK;eor", "1;20261231;5.0;eor"])

/-- Oracles for the C4 counterexample. -/
def netC4 : Net :=
  Net.mk (fun _ => .ok (52, 13, "Berlin")) (fun _ _ s => mkRat s.sid 1)
    (fun _ => some zipC4) (fun _ => none)

/-- Station catalog for the C4 counterexample. -/
def stationsC4 : List Station := [Station.mk 1 0 0 52 13 "Berlin"]

/-- Row produced by the C4 counterexample run. -/
def rowC4 : RowResult :=
  RowResult.mk "10115" (some 52) (some 13) "Berlin" (some 1) "Berlin (recent)" (some 1)
    (Date.mk 2026 12 31) (some 5) 18 (some 13) true "OK"

/-- Counterexample to C4 as stated: 2026-12-31 lies strictly after the
verification date 2026-10-12, yet validation passes and the single batch item
is fully processed — `ok = true`, an HDD value IS computed, and the status is
"OK", not `FutureDate`. -/
theorem future_date_not_rejected_cex :
    dateLt (Date.mk 2026 10 12) (Date.mk 2026 12 31) = true
    ∧ parse_iso_date "2026-12-31" = some (Date.mk 2026 12 31)
    ∧ index_validate "2026-12-31" "18.0" = none
    ∧ index_rows netC4 (.ok stationsC4) ["10115"] (Date.mk 2026 12 31) 18 = .ok [rowC4]
    ∧ rowC4.ok = true ∧ rowC4.hdd = some 13 ∧ rowC4.status = "OK" := by
  decide
